import Mathlib

/-!
Verification of the magic-converter discovery pipeline
(`modulink_extensions/magic_converter`): the file scanner
(`scan_codebase_link.py`), the function extractor
(`extract_functions_link.py`), the domain mapper
(`domain_mapping_link.py`) and the composing `discovery_chain.py`,
shallowly embedded in Lean.

Python strings are Lean `String`s, paths are segment lists, Python
dicts are insertion-ordered association lists, and the filesystem and
the Python parser are explicit oracles passed as parameters.
-/

set_option autoImplicit false

/-! ## String utilities mirroring the Python primitives -/

/-- Python `str.lower()` (ASCII behaviour, which is all the source relies on). -/
def lowerStr (s : String) : String := String.mk (s.data.map Char.toLower)

/-- `tok.isPrefListOf l`: the token list is an initial segment of `l`
(the primitive behind Python substring scanning). -/
def isPrefList : List Char → List Char → Bool
  | [], _ => true
  | _ :: _, [] => false
  | a :: as, b :: bs => a == b && isPrefList as bs

/-- Does the token occur contiguously inside the character list?
Mirrors Python `tok in s` for strings. -/
def containsTok (tok : List Char) : List Char → Bool
  | [] => tok.isEmpty
  | c :: rest => isPrefList tok (c :: rest) || containsTok tok rest

/-- Python `sub in s` on strings. -/
def strContains (s sub : String) : Bool := containsTok sub.data s.data

/-- The character sequence of the `".py"` token. -/
def pyTok : List Char := ['.', 'p', 'y']

/-- Does `".py"` occur contiguously in the character list? -/
def hasPyTok : List Char → Bool
  | [] => false
  | c :: rest => isPrefList pyTok (c :: rest) || hasPyTok rest

/-- Python `s.replace(".py", "")`: removes every occurrence of `".py"`,
scanning left to right, non-overlapping. -/
def stripPy : List Char → List Char
  | [] => []
  | [c] => [c]
  | [c, c2] => [c, c2]
  | c :: c2 :: c3 :: rest =>
    if isPrefList pyTok (c :: c2 :: c3 :: rest) then stripPy rest
    else c :: stripPy (c2 :: c3 :: rest)

/-- The per-character effect of `.replace('/', '.').replace('\\', '.')`. -/
def sepToDot (c : Char) : Char := if c == '/' || c == '\\' then '.' else c

/-- Join path segments with `/`, as `str(Path(...))` renders a relative path. -/
def joinSeg : List String → String
  | [] => ""
  | [a] => a
  | a :: b :: rest => a ++ "/" ++ joinSeg (b :: rest)

/-- `str(relative_path).replace('/', '.').replace('\\', '.').replace('.py', '')`
from `_extract_function_info`. -/
def modulePathStr (s : String) : String := String.mk (stripPy (s.data.map sepToDot))

/-- Python `s.startswith(pre)`. -/
def startsWithStr (s pre : String) : Bool := isPrefList pre.data s.data

/-- Helper of `splitSlash`: split a character list at `/`, with the
characters of the current segment accumulated in reverse. -/
def splitSlashAux : List Char → List Char → List String
  | [], cur => [String.mk cur.reverse]
  | c :: rest, cur =>
    if c == '/' then String.mk cur.reverse :: splitSlashAux rest []
    else splitSlashAux rest (c :: cur)

/-- The segments of a `/`-joined path string (`Path(...).parts`, for the
resolved root). -/
def splitSlash (s : String) : List String := splitSlashAux s.data []

/-- Python truthiness of an optional string (`if not source_path`). -/
def truthyStr : Option String → Bool
  | none => false
  | some s => !(s == "")

/-! ## Python dict model: insertion-ordered association lists -/

/-- `d[k] = v` on a Python dict: replace in place if the key is present,
otherwise append at the end. -/
def dinsert {α : Type} (d : List (String × α)) (k : String) (v : α) : List (String × α) :=
  match d with
  | [] => [(k, v)]
  | p :: rest => if p.1 == k then (k, v) :: rest else p :: dinsert rest k v

/-- Dict lookup. -/
def dlookup {α : Type} (d : List (String × α)) (k : String) : Option α :=
  match d with
  | [] => none
  | p :: rest => if p.1 == k then some p.2 else dlookup rest k

/-- `d[k] = f(d[k])` with a `defaultdict`-style default: mirrors
`domain_mappings[domain].append(...)` and `domain_stats[domain] += 1`. -/
def dalter {α : Type} (d : List (String × α)) (k : String) (f : α → α) (v0 : α) :
    List (String × α) :=
  match d with
  | [] => [(k, f v0)]
  | p :: rest => if p.1 == k then (p.1, f p.2) :: rest else p :: dalter rest k f v0

/-- Python `d.update(d2)`. -/
def dupdate {α : Type} (d d2 : List (String × α)) : List (String × α) :=
  d2.foldl (fun a p => dinsert a p.1 p.2) d

/-! ## AST model: the parts of a Python function definition the source reads -/

/-- One positional parameter (`ast.arg`). `ann = none` means no annotation;
`ann = some none` means the annotation is present but `ast.unparse` raises;
`ann = some (some s)` means it unparses to `s`. -/
structure PyArg where
  arg : String
  ann : Option (Option String)
deriving DecidableEq

/-- One event of `ast.walk` over a function body, classified exactly as the
source classifies nodes. `call recv`: a `Call` node; `recv = some (some r)`
when its callee is an `Attribute` whose base is the plain name `r`,
`recv = some none` when the callee is an `Attribute` with a non-name base,
`recv = none` for any other callee. -/
inductive BodyNode where
  | cond
  | loop
  | tryex
  | ret
  | other
  | call (recv : Option (Option String))
deriving DecidableEq

/-- A `FunctionDef` / `AsyncFunctionDef` node, restricted to the attributes
the extractor reads. `ret_ann` follows the same convention as `PyArg.ann`. -/
structure FuncNode where
  name : String
  args : List PyArg
  defaults : Nat
  docstring : Option String
  is_async : Bool
  ret_ann : Option (Option String)
  body : List BodyNode
  lineno : Nat
  end_lineno : Option Nat
deriving DecidableEq

/-! ## Data model of the pipeline results -/

/-- One entry of the `errors` list: every error the pipeline appends is a
dict with a kind tag, the originating link/chain, and a message. -/
structure ErrRec where
  etype : String
  origin : String
  message : String
deriving DecidableEq

/-- The `_analyze_complexity` counters. -/
structure Complexity where
  conditions : Nat
  loops : Nat
  try_except : Nat
  function_calls : Nat
  returns : Nat
deriving DecidableEq

/-- The per-function metadata dict built by `_extract_function_info`. -/
structure FunctionRecord where
  name : String
  qualified_name : String
  file_path : List String
  module_path : String
  is_async : Bool
  args : List String
  defaults : Nat
  docstring : String
  returns : Option String
  type_hints : List (String × String)
  complexity : Complexity
  domain : String
  dependencies : List String
  source_lines : Nat × Nat
deriving DecidableEq

/-- `scan_summary`. -/
structure ScanSummary where
  total_files_found : Nat
  files_after_filtering : Nat
  filtered_out : Nat
  source_path : String
deriving DecidableEq

/-- `extraction_summary`; the average is a rational, mirroring the float
`total_functions / max(files_processed, 1)`. -/
structure ExtractionSummary where
  total_files_processed : Nat
  files_with_errors : Nat
  total_functions_discovered : Nat
  functions_per_file_avg : ℚ
deriving DecidableEq

/-- The merged `{**base_config, **domain_specific}` dict of
`_create_domain_config`. -/
structure DomainConfig where
  enable_validation : Bool
  enable_tracing : Bool
  enable_metrics : Bool
  user_mapping : List (String × String)
  result_key : String
deriving DecidableEq

/-- `mapping_summary`. -/
structure MappingSummary where
  total_functions : Nat
  domains_found : Nat
  domain_distribution : List (String × Nat)
deriving DecidableEq

/-- `discovery_summary`. -/
structure DiscoverySummary where
  total_files_found : Nat
  files_after_filtering : Nat
  files_processed : Nat
  functions_discovered : Nat
  functions_per_file : ℚ
  files_with_errors : Nat
  discovery_success : Bool
deriving DecidableEq

/-- A discovered file, as its path segments relative to the scan root. -/
abbrev PyPath := List String

/-- The ModuLink context dict, restricted to the keys the pipeline reads and
writes. A `none` field is an absent key; the `errors` key is only ever read
for truthiness and appended to, so an absent key and `[]` coincide. -/
structure Ctx where
  errors : List ErrRec := []
  source_path : Option String := none
  python_files : Option (List PyPath) := none
  scan_summary : Option ScanSummary := none
  scan_success : Option Bool := none
  discovered_functions : Option (List (String × FunctionRecord)) := none
  extraction_summary : Option ExtractionSummary := none
  extraction_success : Option Bool := none
  function_configs : Option (List (String × DomainConfig)) := none
  domain_mappings : Option (List (String × List (String × FunctionRecord))) := none
  mapping_summary : Option MappingSummary := none
  mapping_success : Option Bool := none
  discovery_summary : Option DiscoverySummary := none
  discovery_success : Option Bool := none
deriving DecidableEq

/-- The filesystem oracle: `pathExists` models `Path.exists()`, `rglob`
models `source_path.rglob("*.py")`, returning each hit as its segments
relative to the root. -/
structure Fs where
  pathExists : String → Bool
  rglob : String → List PyPath

/-! ## `scan_codebase_link.py` -/

/-- The `ignore_dirs` set of `_should_include_file`. -/
def ignoreDirs : List String :=
  [".git", ".venv", "venv", "env", "__pycache__", ".pytest_cache", "node_modules"]

/-- `_should_include_file`, on the full path segments of a discovered file
(`str(file_path)` is the `/`-joined rendering, `file_path.name` the last
segment, `file_path.parts` the segment list). -/
def _should_include_file (parts : List String) : Bool :=
  let s := joinSeg parts
  let nm := (parts.getLast?).getD ""
  if strContains s "__pycache__" then false
  else if strContains nm "test_" || startsWithStr nm "test" then false
  else if ignoreDirs.any (fun d => parts.contains d) then false
  else true

/-- The filtered file list the scan stores in `python_files`: `rglob`
results surviving `_should_include_file` (applied to root + relative
segments, since `rglob` yields paths under the resolved root). -/
def scanFiles (fs : Fs) (root : String) : List PyPath :=
  (fs.rglob root).filter (fun rel => _should_include_file (splitSlash root ++ rel))

/-- `scan_codebase_link`. Logging is dropped; the `try/except` around
`resolve`/`rglob` cannot fire in this model of the filesystem API. -/
def scan_codebase_link (fs : Fs) (ctx : Ctx) : Ctx :=
  if ctx.errors ≠ [] then ctx
  else if truthyStr ctx.source_path = false then
    { ctx with
      errors := ctx.errors ++
        [⟨"missing_context", "scan_codebase_link", "Missing required context key: source_path"⟩],
      scan_success := some false }
  else
    let root := ctx.source_path.getD ""
    if fs.pathExists root = false then
      { ctx with
        errors := ctx.errors ++
          [⟨"invalid_path", "scan_codebase_link", "Source path does not exist: " ++ root⟩],
        scan_success := some false }
    else
      let allFiles := fs.rglob root
      let filtered := scanFiles fs root
      { ctx with
        python_files := some filtered,
        scan_summary := some ⟨allFiles.length, filtered.length,
          allFiles.length - filtered.length, root⟩,
        scan_success := some true }

/-! ## `extract_functions_link.py` -/

/-- `_should_include_function`, with `pathStr = str(file_path)`. -/
def _should_include_function (n : FuncNode) (pathStr : String) : Bool :=
  if startsWithStr n.name "_" && !(startsWithStr n.name "__") then false
  else if strContains pathStr "__pycache__" then false
  else if ["setup", "configure", "main", "__main__"].contains n.name
          && n.args.length == 0 then false
  else true

/-- The `ml` keyword set of `_detect_domain`. -/
def mlTerms : List String := ["train", "model", "predict", "accuracy", "dataset", "feature"]

/-- The `data_processing` keyword set. -/
def dataTerms : List String := ["process", "transform", "filter", "clean", "parse", "data"]

/-- The `api` keyword set. -/
def apiTerms : List String := ["api", "request", "response", "http", "url", "endpoint"]

/-- The `file_ops` keyword set. -/
def fileTerms : List String := ["file", "read", "write", "save", "load", "path"]

/-- The haystack `f"{name} {docstring}"` built from the lowercased name and
docstring (`ast.get_docstring(node) or ""`). -/
def combinedOf (n : FuncNode) : String :=
  lowerStr n.name ++ " " ++ lowerStr (n.docstring.getD "")

/-- `_detect_domain`. -/
def _detect_domain (n : FuncNode) : String :=
  let combined := combinedOf n
  if mlTerms.any (fun t => strContains combined t) then "ml"
  else if dataTerms.any (fun t => strContains combined t) then "data_processing"
  else if apiTerms.any (fun t => strContains combined t) then "api"
  else if fileTerms.any (fun t => strContains combined t) then "file_ops"
  else "business_logic"

/-- The receiver of every `obj.method(...)` call in the body
(`child.func.value.id` when the callee is an `Attribute` over a `Name`). -/
def callReceivers (body : List BodyNode) : List String :=
  body.filterMap (fun n =>
    match n with
    | .call (some (some r)) => some r
    | _ => none)

/-- `_extract_dependencies`: `list(set(...))` — the receivers, de-duplicated
(Lean fixes a canonical order where CPython's set order is arbitrary). -/
def _extract_dependencies (body : List BodyNode) : List String :=
  (callReceivers body).dedup

/-- `_analyze_complexity`. -/
def _analyze_complexity (body : List BodyNode) : Complexity :=
  body.foldl (fun c n =>
    match n with
    | .cond => { c with conditions := c.conditions + 1 }
    | .loop => { c with loops := c.loops + 1 }
    | .tryex => { c with try_except := c.try_except + 1 }
    | .call _ => { c with function_calls := c.function_calls + 1 }
    | .ret => { c with returns := c.returns + 1 }
    | .other => c) ⟨0, 0, 0, 0, 0⟩

/-- The qualified name built in `_extract_function_info` from the path
relative to the scan root and the local function name. -/
def qualified_name (rel : PyPath) (fname : String) : String :=
  modulePathStr (joinSeg rel) ++ "." ++ fname

/-- `str(file_path)` of a discovered file (resolved root plus relative
segments). -/
def fullPathStr (root : String) (rel : PyPath) : String :=
  root ++ "/" ++ joinSeg rel

/-- `_extract_function_info`. -/
def _extract_function_info (root : String) (rel : PyPath) (n : FuncNode) : FunctionRecord :=
  let module_path := modulePathStr (joinSeg rel)
  { name := n.name
    qualified_name := module_path ++ "." ++ n.name
    file_path := splitSlash root ++ rel
    module_path := module_path
    is_async := n.is_async
    args := n.args.map (fun a => a.arg)
    defaults := n.defaults
    docstring := n.docstring.getD ""
    returns := n.ret_ann.join
    type_hints := n.args.filterMap (fun a => a.ann.map (fun u => (a.arg, u.getD "Any")))
    complexity := _analyze_complexity n.body
    domain := _detect_domain n
    dependencies := _extract_dependencies n.body
    source_lines :=
      match n.end_lineno with
      | some e => (n.lineno, e)
      | none => (n.lineno, n.lineno + 10) }

/-- The parsing oracle: `read rel = none` models `ast.parse` (or the file
read) raising for that file; `read rel = some nodes` gives the
`FunctionDef`/`AsyncFunctionDef` nodes of `ast.walk` in order. -/
abbrev ReadFn := PyPath → Option (List FuncNode)

/-- `_extract_functions_from_file`: on a parse failure the file yields
`none`; otherwise the per-file dict of records keyed by qualified name. -/
def _extract_functions_from_file (read : ReadFn) (root : String) (rel : PyPath) :
    Option (List (String × FunctionRecord)) :=
  match read rel with
  | none => none
  | some nodes =>
    some (nodes.foldl (fun d n =>
      if _should_include_function n (fullPathStr root rel) then
        let info := _extract_function_info root rel n
        dinsert d info.qualified_name info
      else d) [])

/-- The mutable loop state of `extract_functions_link`. -/
structure ExtractAcc where
  discovered : List (String × FunctionRecord)
  total : Nat
  processed : Nat
  withErrors : Nat
deriving DecidableEq

/-- The file loop of `extract_functions_link` (both the progress-bar and the
plain branch aggregate identically). -/
def extractLoop (read : ReadFn) (root : String) : List PyPath → ExtractAcc → ExtractAcc
  | [], acc => acc
  | f :: rest, acc =>
    match _extract_functions_from_file read root f with
    | some fns =>
      extractLoop read root rest
        ⟨dupdate acc.discovered fns, acc.total + fns.length, acc.processed + 1, acc.withErrors⟩
    | none =>
      extractLoop read root rest ⟨acc.discovered, acc.total, acc.processed, acc.withErrors + 1⟩

/-- `extract_functions_link`. -/
def extract_functions_link (read : ReadFn) (ctx : Ctx) : Ctx :=
  if ctx.errors ≠ [] then ctx
  else if truthyStr ctx.source_path = false then
    { ctx with
      errors := ctx.errors ++
        [⟨"missing_context", "extract_functions_link", "Missing required context key: source_path"⟩],
      extraction_success := some false }
  else
    let root := ctx.source_path.getD ""
    let files := ctx.python_files.getD []
    let acc := extractLoop read root files ⟨[], 0, 0, 0⟩
    { ctx with
      discovered_functions := some acc.discovered,
      extraction_summary := some ⟨acc.processed, acc.withErrors, acc.total,
        (acc.total : ℚ) / ((max acc.processed 1 : Nat) : ℚ)⟩,
      extraction_success := some true }

/-! ## `domain_mapping_link.py` -/

/-- `_create_domain_config`. -/
def _create_domain_config (domain : String) : DomainConfig :=
  let p : List (String × String) × String :=
    if domain == "ml" then
      ([("data", "training_data"), ("model", "ml_model"), ("X", "features"),
        ("y", "target"), ("features", "input_features")], "ml_result")
    else if domain == "data_processing" then
      ([("data", "input_data"), ("df", "dataframe"), ("items", "input_items")],
       "processed_data")
    else if domain == "api" then
      ([("url", "api_endpoint"), ("endpoint", "api_endpoint"), ("data", "request_data")],
       "api_response")
    else if domain == "file_ops" then
      ([("path", "file_path"), ("filename", "file_path"), ("data", "file_data")],
       "file_result")
    else ([], "result")
  ⟨true, true, true, p.1, p.2⟩

/-- The loop state of `domain_mapping_link`: `function_configs`, the
`defaultdict(list)` of `domain_mappings`, and the `defaultdict(int)` of
`domain_stats`. -/
structure MapAcc where
  configs : List (String × DomainConfig)
  groups : List (String × List (String × FunctionRecord))
  stats : List (String × Nat)
deriving DecidableEq

/-- The per-function step of the `domain_mapping_link` loop. -/
def mapStep (a : MapAcc) (p : String × FunctionRecord) : MapAcc :=
  let d := p.2.domain
  ⟨dinsert a.configs p.1 (_create_domain_config d),
   dalter a.groups d (fun l => l ++ [p]) [],
   dalter a.stats d (fun k => k + 1) 0⟩

/-- `domain_mapping_link`. `ctx.get('discovered_functions', {})` followed by
a truthiness test: an absent key and an empty dict both take the error
branch. -/
def domain_mapping_link (ctx : Ctx) : Ctx :=
  if ctx.errors ≠ [] then ctx
  else
    let df := ctx.discovered_functions.getD []
    if df.isEmpty then
      { ctx with
        errors := ctx.errors ++
          [⟨"missing_context", "domain_mapping_link",
            "Missing required context key: discovered_functions"⟩],
        mapping_success := some false }
    else
      let acc := df.foldl mapStep ⟨[], [], []⟩
      { ctx with
        function_configs := some acc.configs,
        domain_mappings := some acc.groups,
        mapping_success := some true,
        mapping_summary := some ⟨df.length, acc.stats.length, acc.stats⟩ }

/-! ## `discovery_chain.py` -/

/-- `discovery_chain`: scan, then extract, each guarded by the previous
success flag; the final summary uses `.get(key, 0)` defaults. -/
def discovery_chain (fs : Fs) (read : ReadFn) (ctx : Ctx) : Ctx :=
  if truthyStr ctx.source_path = false then
    { ctx with
      errors := ctx.errors ++
        [⟨"missing_context", "discovery_chain", "Missing required context key: source_path"⟩],
      discovery_success := some false }
  else
    let c1 := scan_codebase_link fs ctx
    if c1.scan_success.getD false = false then { c1 with discovery_success := some false }
    else
      let c2 := extract_functions_link read c1
      if c2.extraction_success.getD false = false then
        { c2 with discovery_success := some false }
      else
        { c2 with
          discovery_summary := some
            ⟨((c2.scan_summary).map (fun s => s.total_files_found)).getD 0,
             ((c2.scan_summary).map (fun s => s.files_after_filtering)).getD 0,
             ((c2.extraction_summary).map (fun s => s.total_files_processed)).getD 0,
             ((c2.extraction_summary).map (fun s => s.total_functions_discovered)).getD 0,
             ((c2.extraction_summary).map (fun s => s.functions_per_file_avg)).getD 0,
             ((c2.extraction_summary).map (fun s => s.files_with_errors)).getD 0,
             true⟩,
          discovery_success := some true }

/-! ## Claim-side definitions (phrased after the specification text) -/

/-- The category precedence list of §4.2.1, in order. -/
def domainCategories : List (String × List String) :=
  [("ml", mlTerms), ("data_processing", dataTerms), ("api", apiTerms), ("file_ops", fileTerms)]

/-- First-match-wins classification over the precedence list, defaulting to
`business_logic`, as the claim states it. -/
def classifyFirstMatch (combined : String) : String :=
  match domainCategories.find? (fun c => c.2.any (fun t => strContains combined t)) with
  | some c => c.1
  | none => "business_logic"

/-- Does the string end with the `.py` suffix? -/
def endsWithPy (s : String) : Bool := isPrefList pyTok.reverse s.data.reverse

/-- The qualified name as claim C3 states it: the relative path with the
source-file suffix removed (suffix only) and separators replaced by dots,
then a dot and the local name. -/
def qualified_name_claim (rel : PyPath) (fname : String) : String :=
  let s := joinSeg rel
  let stem := if endsWithPy s then String.mk (s.data.take (s.data.length - 3)) else s
  String.mk (stem.data.map sepToDot) ++ "." ++ fname

/-- The inclusion predicate as claim C4 states it: admit everything except
(a) single-underscore non-double-underscore names, (b) files whose path
carries the bytecode-cache token, (c) reserved entry-point names with zero
parameters. -/
def includeClaim (n : FuncNode) (pathStr : String) : Bool :=
  !((startsWithStr n.name "_" && !startsWithStr n.name "__")
    || strContains pathStr "__pycache__"
    || (["setup", "configure", "main", "__main__"].contains n.name && n.args.length == 0))

/-! ## Helper lemmas -/

theorem strData_append (a b : String) : (a ++ b).data = a.data ++ b.data := rfl

theorem joinSeg_cons_of_ne_nil (a : String) (l : List String) (h : l ≠ []) :
    joinSeg (a :: l) = a ++ "/" ++ joinSeg l := by
  cases l with
  | nil => exact absurd rfl h
  | cons b rest => rfl

theorem strAppend_assoc (a b c : String) : a ++ b ++ c = a ++ (b ++ c) := by
  apply String.ext
  simp only [strData_append, List.append_assoc]

theorem joinSeg_append_single (dirs : List String) (x y : String) :
    joinSeg (dirs ++ [x ++ y]) = joinSeg (dirs ++ [x]) ++ y := by
  induction dirs with
  | nil => simp [joinSeg]
  | cons d ds ih =>
    have h1 : ds ++ [x ++ y] ≠ [] := by simp
    have h2 : ds ++ [x] ≠ [] := by simp
    rw [List.cons_append, joinSeg_cons_of_ne_nil d _ h1, List.cons_append,
      joinSeg_cons_of_ne_nil d _ h2, ih, ← strAppend_assoc]

theorem isPrefList_pyTok_cons3 (c c2 c3 : Char) (l : List Char) :
    isPrefList pyTok (c :: c2 :: c3 :: l) = ('.' == c && ('p' == c2 && 'y' == c3)) := by
  simp [isPrefList, pyTok]

/-- If `".py"` does not occur in `l`, appending it and running the removal
pass of `replace('.py', '')` strips exactly the appended suffix. -/
theorem stripPy_append (l : List Char) (h : hasPyTok l = false) :
    stripPy (l ++ pyTok) = l := by
  induction l with
  | nil => decide
  | cons c rest ih =>
    rw [hasPyTok, Bool.or_eq_false_iff] at h
    obtain ⟨h1, h2⟩ := h
    cases rest with
    | nil =>
      show stripPy (c :: '.' :: 'p' :: ['y']) = [c]
      rw [stripPy, isPrefList_pyTok_cons3]
      simp only [show ('p' == '.') = false from by decide, Bool.false_and, Bool.and_false,
        if_neg Bool.false_ne_true]
      rw [show ('.' :: 'p' :: ['y'] : List Char) = pyTok from rfl,
        show stripPy pyTok = [] from by decide]
    | cons c2 rest1 =>
      cases rest1 with
      | nil =>
        show stripPy (c :: c2 :: '.' :: ['p', 'y']) = [c, c2]
        rw [stripPy, isPrefList_pyTok_cons3]
        simp only [show ('y' == '.') = false from by decide, Bool.and_false,
          if_neg Bool.false_ne_true]
        rw [show (c2 :: '.' :: ['p', 'y'] : List Char) = (c2 :: '.' :: 'p' :: ['y']) from rfl,
          stripPy, isPrefList_pyTok_cons3]
        simp only [show ('p' == '.') = false from by decide, Bool.false_and, Bool.and_false,
          if_neg Bool.false_ne_true]
        rw [show ('.' :: 'p' :: ['y'] : List Char) = pyTok from rfl,
          show stripPy pyTok = [] from by decide]
      | cons c3 rest2 =>
        show stripPy (c :: c2 :: c3 :: (rest2 ++ pyTok)) = c :: c2 :: c3 :: rest2
        rw [stripPy, isPrefList_pyTok_cons3]
        rw [isPrefList_pyTok_cons3] at h1
        simp only [h1, if_neg Bool.false_ne_true]
        have := ih h2
        rw [show (c2 :: c3 :: (rest2 ++ pyTok)) = ((c2 :: c3 :: rest2) ++ pyTok) from rfl, this]

/-! ## Claim C1: domain classification is deterministic first-match-wins -/

/-- C1: `_detect_domain` is a pure function of the lowercased
name-plus-docstring haystack, equal to first-match-wins classification over
the fixed precedence list `ml`, `data_processing`, `api`, `file_ops` with
default `business_logic`; and `train_and_save_model` with no docstring
classifies as `ml`, not `file_ops`. -/
theorem C1_domain_first_match :
    (∀ n : FuncNode, _detect_domain n = classifyFirstMatch (combinedOf n)) ∧
    _detect_domain
      { name := "train_and_save_model", args := [], defaults := 0, docstring := none,
        is_async := false, ret_ann := none, body := [], lineno := 1, end_lineno := none }
      = "ml" := by
  constructor
  · intro n
    simp only [_detect_domain, classifyFirstMatch, domainCategories]
    cases h1 : mlTerms.any (fun t => strContains (combinedOf n) t) <;>
      cases h2 : dataTerms.any (fun t => strContains (combinedOf n) t) <;>
        cases h3 : apiTerms.any (fun t => strContains (combinedOf n) t) <;>
          cases h4 : fileTerms.any (fun t => strContains (combinedOf n) t) <;>
            simp [List.find?, h1, h2, h3, h4]
  · decide

/-! ## Claim C2: the test-file rule is not a pure prefix rule -/

/-- C2 counterexample: `foo_test_bar.py` does not start with `test`, yet
the scanner excludes it (the code also excludes on a `test_` substring
anywhere in the name), refuting "included otherwise". -/
theorem C2_counterexample :
    startsWithStr "foo_test_bar.py" "test" = false ∧
    _should_include_file ["src", "foo_test_bar.py"] = false := by decide

/-- C2 (amended): for files hit by neither the bytecode-cache rule nor the
ignored-directory rule, the scanner excludes exactly the files whose name
contains `test_` as a substring or starts with `test`; `test_foo.py` and
`testfoo.py` are excluded and `footest.py` is included. -/
theorem C2_test_exclusion_amended :
    (∀ parts : List String,
      strContains (joinSeg parts) "__pycache__" = false →
      ignoreDirs.any (fun d => parts.contains d) = false →
      (_should_include_file parts = false ↔
        (strContains ((parts.getLast?).getD "") "test_"
          || startsWithStr ((parts.getLast?).getD "") "test") = true)) ∧
    _should_include_file ["src", "test_foo.py"] = false ∧
    _should_include_file ["src", "testfoo.py"] = false ∧
    _should_include_file ["src", "footest.py"] = true := by
  refine ⟨fun parts h1 h2 => ?_, by decide, by decide, by decide⟩
  simp only [_should_include_file, h1, h2]
  cases hT : (strContains ((parts.getLast?).getD "") "test_"
      || startsWithStr ((parts.getLast?).getD "") "test") <;> simp [hT]

/-- C2 amended-claim witness at a concrete input. -/
theorem C2_test_exclusion_witness :
    _should_include_file ["pkg", "my_test_data.py"] = false :=
  (C2_test_exclusion_amended.1 ["pkg", "my_test_data.py"] (by decide) (by decide)).mpr
    (by decide)

/-! ## Claim C3: the module path removes every `.py` occurrence -/

/-- C3 counterexample: for `pkg/pyutils/mod.py` the code yields
`pkgutils.mod.helper` (the separator-dotted path contains `.py` inside
`pkg.pyutils`, and `replace` removes every occurrence), while the claim's
suffix-only rule yields `pkg.pyutils.mod.helper`. -/
theorem C3_counterexample :
    qualified_name ["pkg", "pyutils", "mod.py"] "helper" = "pkgutils.mod.helper" ∧
    qualified_name_claim ["pkg", "pyutils", "mod.py"] "helper" = "pkg.pyutils.mod.helper" ∧
    qualified_name ["pkg", "pyutils", "mod.py"] "helper" ≠
      qualified_name_claim ["pkg", "pyutils", "mod.py"] "helper" := by decide

/-- C3 (amended): the qualified name is the relative path with separators
replaced by dots and every occurrence of `.py` removed (not only the
suffix), then a dot and the local name; whenever the separator-dotted
path contains `.py` nowhere except the final suffix, this coincides with
the claim's suffix-removal reading. `_extract_function_info` records
exactly this qualified name. -/
theorem C3_qualified_name_amended :
    (∀ (root : String) (rel : PyPath) (n : FuncNode),
      (_extract_function_info root rel n).qualified_name = qualified_name rel n.name) ∧
    (∀ (dirs : List String) (stem fname : String),
      hasPyTok ((joinSeg (dirs ++ [stem])).data.map sepToDot) = false →
      qualified_name (dirs ++ [stem ++ ".py"]) fname
        = String.mk ((joinSeg (dirs ++ [stem])).data.map sepToDot) ++ "." ++ fname) := by
  constructor
  · intro root rel n
    rfl
  · intro dirs stem fname h
    show modulePathStr (joinSeg (dirs ++ [stem ++ ".py"])) ++ "." ++ fname = _
    rw [joinSeg_append_single, modulePathStr]
    rw [show (joinSeg (dirs ++ [stem]) ++ ".py").data
        = (joinSeg (dirs ++ [stem])).data ++ pyTok from rfl]
    rw [List.map_append, show pyTok.map sepToDot = pyTok from by decide, stripPy_append _ h]

/-- C3 amended-claim witness: the claim's own example, `pkg/sub/mod.py`
with function `helper`. -/
theorem C3_qualified_name_witness :
    qualified_name ["pkg", "sub", "mod.py"] "helper" = "pkg.sub.mod.helper" := by
  have h := C3_qualified_name_amended.2 ["pkg", "sub"] "mod" "helper" (by decide)
  exact h.trans (by decide)

/-! ## Claim C4: the function inclusion filter -/

/-- C4: the extractor admits every definition except single-underscore
non-double-underscore names, definitions in a path carrying the
bytecode-cache token, and zero-parameter `setup`/`configure`/`main`/
`__main__`; `def main()` is excluded, `def main(argv)` is included,
`_internal` is excluded, `__init__` is included. -/
theorem C4_inclusion_filter :
    (∀ (n : FuncNode) (pathStr : String),
      _should_include_function n pathStr = includeClaim n pathStr) ∧
    _should_include_function
      { name := "main", args := [], defaults := 0, docstring := none, is_async := false,
        ret_ann := none, body := [], lineno := 1, end_lineno := none } "proj/a.py" = false ∧
    _should_include_function
      { name := "main", args := [⟨"argv", none⟩], defaults := 0, docstring := none,
        is_async := false, ret_ann := none, body := [], lineno := 1, end_lineno := none }
      "proj/a.py" = true ∧
    _should_include_function
      { name := "_internal", args := [], defaults := 0, docstring := none, is_async := false,
        ret_ann := none, body := [], lineno := 1, end_lineno := none } "proj/a.py" = false ∧
    _should_include_function
      { name := "__init__", args := [⟨"self", none⟩], defaults := 0, docstring := none,
        is_async := false, ret_ann := none, body := [], lineno := 1, end_lineno := none }
      "proj/a.py" = true := by
  refine ⟨fun n pathStr => ?_, by decide, by decide, by decide, by decide⟩
  simp only [_should_include_function, includeClaim]
  cases h1 : startsWithStr n.name "_" && !startsWithStr n.name "__" <;>
    cases h2 : strContains pathStr "__pycache__" <;>
      cases h3 : ["setup", "configure", "main", "__main__"].contains n.name
          && n.args.length == 0 <;>
        simp [h1, h2, h3]

/-! ## Claim C5: parse errors are isolated per file -/

theorem extractLoop_processed (read : ReadFn) (root : String) (files : List PyPath) :
    ∀ acc : ExtractAcc,
      (extractLoop read root files acc).processed
        = acc.processed
          + files.countP (fun f => (_extract_functions_from_file read root f).isSome) := by
  induction files with
  | nil => intro acc; simp [extractLoop]
  | cons f rest ih =>
    intro acc
    rw [extractLoop]
    cases h : _extract_functions_from_file read root f <;>
      simp [h, ih, List.countP_cons]
    all_goals omega

theorem extractLoop_withErrors (read : ReadFn) (root : String) (files : List PyPath) :
    ∀ acc : ExtractAcc,
      (extractLoop read root files acc).withErrors
        = acc.withErrors
          + files.countP (fun f => (_extract_functions_from_file read root f).isNone) := by
  induction files with
  | nil => intro acc; simp [extractLoop]
  | cons f rest ih =>
    intro acc
    rw [extractLoop]
    cases h : _extract_functions_from_file read root f <;>
      simp [h, ih, List.countP_cons]
    all_goals omega

theorem extractLoop_total (read : ReadFn) (root : String) (files : List PyPath) :
    ∀ acc : ExtractAcc,
      (extractLoop read root files acc).total
        = acc.total
          + ((files.filter (fun f => (_extract_functions_from_file read root f).isSome)).map
              (fun f => ((_extract_functions_from_file read root f).getD []).length)).sum := by
  induction files with
  | nil => intro acc; simp [extractLoop]
  | cons f rest ih =>
    intro acc
    rw [extractLoop]
    cases h : _extract_functions_from_file read root f <;>
      simp [h, ih, List.filter_cons]
    all_goals omega

theorem extractLoop_discovered (read : ReadFn) (root : String) (files : List PyPath) :
    ∀ acc : ExtractAcc,
      (extractLoop read root files acc).discovered
        = (files.filter (fun f => (_extract_functions_from_file read root f).isSome)).foldl
            (fun d f => dupdate d ((_extract_functions_from_file read root f).getD []))
            acc.discovered := by
  induction files with
  | nil => intro acc; simp [extractLoop]
  | cons f rest ih =>
    intro acc
    rw [extractLoop]
    cases h : _extract_functions_from_file read root f <;>
      simp [h, ih, List.filter_cons]

/-- C5: with no prior errors and a present root, extraction always
succeeds; a file that fails to parse contributes no functions and bumps the
files-with-errors count by exactly one, the remaining files are still
processed, the files-processed count is the number of successfully parsed
files, and the discovered mapping is exactly the merge of the per-file
dicts of the files that parsed. -/
theorem C5_parse_error_isolation (read : ReadFn) (ctx : Ctx) (root : String)
    (files : List PyPath) (herr : ctx.errors = []) (hsp : ctx.source_path = some root)
    (hroot : root ≠ "") (hpf : ctx.python_files = some files) :
    (extract_functions_link read ctx).extraction_success = some true ∧
    (extract_functions_link read ctx).errors = [] ∧
    ((extract_functions_link read ctx).extraction_summary.map
        (fun s => s.total_files_processed))
      = some (files.countP (fun f => (_extract_functions_from_file read root f).isSome)) ∧
    ((extract_functions_link read ctx).extraction_summary.map (fun s => s.files_with_errors))
      = some (files.countP (fun f => (_extract_functions_from_file read root f).isNone)) ∧
    (extract_functions_link read ctx).discovered_functions
      = some ((files.filter (fun f => (_extract_functions_from_file read root f).isSome)).foldl
          (fun d f => dupdate d ((_extract_functions_from_file read root f).getD [])) []) := by
  have hne : (root == "") = false := by
    cases hb : root == "" with
    | false => rfl
    | true => exact absurd (by simpa using hb) hroot
  simp only [extract_functions_link, herr, hsp, hpf, truthyStr, hne, Bool.not_false,
    ne_eq, not_true_eq_false, if_false, Option.getD_some]
  simp [extractLoop_processed, extractLoop_withErrors, extractLoop_discovered, herr]

/-- Per-file parse results used by the C5 witness: `bad.py` fails to
parse, `a.py` and `c.py` hold one function each. -/
def readC5 : ReadFn := fun p =>
  if p = [["bad.py"]].head! then none
  else if p = ["a.py"] then
    some [⟨"train", [⟨"data", none⟩], 0, some "Train model", false, none, [], 1, some 3⟩]
  else if p = ["c.py"] then
    some [⟨"parse_rows", [⟨"rows", none⟩], 0, none, false, none, [], 1, some 2⟩]
  else some []

/-- Input context for the C5 witness. -/
def ctxC5 : Ctx :=
  { source_path := some "proj", python_files := some [["a.py"], ["bad.py"], ["c.py"]] }

/-- C5 witness: three files, one with a syntax error — two processed, one
file error, and functions only from the two valid files. -/
theorem C5_parse_error_isolation_witness :
    (extract_functions_link readC5 ctxC5).extraction_success = some true ∧
    ((extract_functions_link readC5 ctxC5).extraction_summary.map
        (fun s => s.total_files_processed)) = some 2 ∧
    ((extract_functions_link readC5 ctxC5).extraction_summary.map
        (fun s => s.files_with_errors)) = some 1 ∧
    ((extract_functions_link readC5 ctxC5).discovered_functions.map
        (fun d => d.map Prod.fst)) = some ["a.train", "c.parse_rows"] := by
  have h := C5_parse_error_isolation readC5 ctxC5 "proj" [["a.py"], ["bad.py"], ["c.py"]]
    rfl rfl (by decide) rfl
  refine ⟨h.1, h.2.2.1.trans (by decide), h.2.2.2.1.trans (by decide), ?_⟩
  rw [h.2.2.2.2]
  decide

/-! ## Claim C6: the early-exit frame property -/

/-- C6: whenever the incoming context already carries errors, each stage
returns it unchanged — no new keys, no success flag, and (for the scan and
extract stages) a result independent of the filesystem and parser oracles,
so no filesystem work is observable. -/
theorem C6_early_exit_frame (fs : Fs) (read : ReadFn) (ctx : Ctx) (h : ctx.errors ≠ []) :
    scan_codebase_link fs ctx = ctx ∧
    extract_functions_link read ctx = ctx ∧
    domain_mapping_link ctx = ctx := by
  refine ⟨?_, ?_, ?_⟩ <;>
    simp [scan_codebase_link, extract_functions_link, domain_mapping_link, h]

/-- A context that already signalled a failure, for the C6 witness. -/
def ctxC6 : Ctx :=
  { errors := [⟨"scan_error", "scan_codebase_link", "Failed to scan codebase: boom"⟩],
    source_path := some "proj" }

/-- Concrete filesystem oracle for witnesses. -/
def fsW : Fs := ⟨fun _ => true, fun _ => [["a.py"]]⟩

/-- Concrete parser oracle for witnesses. -/
def readW : ReadFn := fun _ => some []

/-- C6 witness at a concrete failed context. -/
theorem C6_early_exit_frame_witness :
    scan_codebase_link fsW ctxC6 = ctxC6 ∧
    extract_functions_link readW ctxC6 = ctxC6 ∧
    domain_mapping_link ctxC6 = ctxC6 :=
  C6_early_exit_frame fsW readW ctxC6 (by decide)

/-! ## Claim C7: failed flags always come with structured errors -/

theorem scan_source_path (fs : Fs) (ctx : Ctx) :
    (scan_codebase_link fs ctx).source_path = ctx.source_path := by
  simp only [scan_codebase_link]
  split_ifs <;> rfl

theorem scan_errors_keep (fs : Fs) (ctx : Ctx) (h : ctx.errors ≠ []) :
    (scan_codebase_link fs ctx).errors = ctx.errors := by
  simp [scan_codebase_link, h]

theorem scan_fail_errors (fs : Fs) (ctx : Ctx) (hsp : truthyStr ctx.source_path = true)
    (h : (scan_codebase_link fs ctx).scan_success.getD false = false) :
    (scan_codebase_link fs ctx).errors ≠ [] := by
  simp only [scan_codebase_link] at h ⊢
  split_ifs at h ⊢ with h1 h2 h3
  · exact h1
  · simp [hsp] at h2
  · simp
  · simp at h

theorem extract_fail_errors (read : ReadFn) (ctx : Ctx)
    (hsp : truthyStr ctx.source_path = true)
    (h : (extract_functions_link read ctx).extraction_success.getD false = false) :
    (extract_functions_link read ctx).errors ≠ [] := by
  simp only [extract_functions_link] at h ⊢
  split_ifs at h ⊢ with h1 h2
  · exact h1
  · simp [hsp] at h2
  · simp at h

/-- A nonempty literal prefix keeps a string append nonempty. -/
theorem strAppend_ne_empty (a b : String) (ha : a ≠ "") : a ++ b ≠ "" := by
  intro h
  have hd := congrArg String.data h
  rw [strData_append] at hd
  rcases List.append_eq_nil.mp hd with ⟨h1, -⟩
  exact ha (String.ext h1)

theorem scan_errors_mem (fs : Fs) (ctx : Ctx) (e : ErrRec)
    (h : e ∈ (scan_codebase_link fs ctx).errors) :
    e ∈ ctx.errors ∨ (e.etype ≠ "" ∧ e.message ≠ "") := by
  simp only [scan_codebase_link] at h
  split_ifs at h with h1 h2 h3
  · exact Or.inl h
  · rcases List.mem_append.mp h with h4 | h4
    · exact Or.inl h4
    · rcases List.mem_singleton.mp h4 with rfl
      exact Or.inr ⟨by decide, by decide⟩
  · rcases List.mem_append.mp h with h4 | h4
    · exact Or.inl h4
    · rcases List.mem_singleton.mp h4 with rfl
      refine Or.inr ⟨?_, strAppend_ne_empty _ _ (by decide)⟩
      show ("invalid_path" : String) ≠ ""
      decide
  · exact Or.inl h

theorem extract_errors_mem (read : ReadFn) (ctx : Ctx) (e : ErrRec)
    (h : e ∈ (extract_functions_link read ctx).errors) :
    e ∈ ctx.errors ∨ (e.etype ≠ "" ∧ e.message ≠ "") := by
  simp only [extract_functions_link] at h
  split_ifs at h with h1 h2
  · exact Or.inl h
  · rcases List.mem_append.mp h with h4 | h4
    · exact Or.inl h4
    · rcases List.mem_singleton.mp h4 with rfl
      exact Or.inr ⟨by decide, by decide⟩
  · exact Or.inl h

theorem mapping_errors_mem (ctx : Ctx) (e : ErrRec)
    (h : e ∈ (domain_mapping_link ctx).errors) :
    e ∈ ctx.errors ∨ (e.etype ≠ "" ∧ e.message ≠ "") := by
  simp only [domain_mapping_link] at h
  split_ifs at h with h1 h2
  · exact Or.inl h
  · rcases List.mem_append.mp h with h4 | h4
    · exact Or.inl h4
    · rcases List.mem_singleton.mp h4 with rfl
      exact Or.inr ⟨by decide, by decide⟩
  · exact Or.inl h

/-- C7: whenever a stage (or the chain) sets its success flag to `False`,
the returned errors list is non-empty; the chain always sets an overall
success flag; and every error entry the chain adds beyond the caller's own
carries a non-empty kind tag and a non-empty message. -/
theorem C7_failure_surfacing (fs : Fs) (read : ReadFn) (ctx : Ctx) :
    ((scan_codebase_link fs ctx).scan_success = some false →
      (scan_codebase_link fs ctx).errors ≠ []) ∧
    ((extract_functions_link read ctx).extraction_success = some false →
      (extract_functions_link read ctx).errors ≠ []) ∧
    ((domain_mapping_link ctx).mapping_success = some false →
      (domain_mapping_link ctx).errors ≠ []) ∧
    ((discovery_chain fs read ctx).discovery_success = some false →
      (discovery_chain fs read ctx).errors ≠ []) ∧
    (discovery_chain fs read ctx).discovery_success.isSome = true ∧
    (∀ e ∈ (discovery_chain fs read ctx).errors,
      e ∈ ctx.errors ∨ (e.etype ≠ "" ∧ e.message ≠ "")) := by
  refine ⟨?_, ?_, ?_, ?_, ?_, ?_⟩
  · intro h
    simp only [scan_codebase_link] at h ⊢
    split_ifs at h ⊢ with h1 h2 h3
    · exact h1
    · simp
    · simp
    · simp at h
  · intro h
    simp only [extract_functions_link] at h ⊢
    split_ifs at h ⊢ with h1 h2
    · exact h1
    · simp
    · simp at h
  · intro h
    simp only [domain_mapping_link] at h ⊢
    split_ifs at h ⊢ with h1 h2
    · exact h1
    · simp
    · simp at h
  · intro h
    simp only [discovery_chain] at h ⊢
    split_ifs at h ⊢ with h1 h2 h3
    · simp
    · have hsp : truthyStr ctx.source_path = true := by
        cases hb : truthyStr ctx.source_path with
        | false => exact absurd hb h1
        | true => rfl
      exact scan_fail_errors fs ctx hsp h2
    · have hsp : truthyStr ctx.source_path = true := by
        cases hb : truthyStr ctx.source_path with
        | false => exact absurd hb h1
        | true => rfl
      have hsp1 : truthyStr (scan_codebase_link fs ctx).source_path = true := by
        rw [scan_source_path]; exact hsp
      exact extract_fail_errors read _ hsp1 h3
    · simp at h
  · simp only [discovery_chain]
    split_ifs <;> simp
  · intro e he
    simp only [discovery_chain] at he
    split_ifs at he with h1 h2 h3
    · rcases List.mem_append.mp he with h4 | h4
      · exact Or.inl h4
      · rcases List.mem_singleton.mp h4 with rfl
        exact Or.inr ⟨by decide, by decide⟩
    · exact scan_errors_mem fs ctx e he
    · rcases extract_errors_mem read _ e he with h4 | h4
      · exact scan_errors_mem fs ctx e h4
      · exact Or.inr h4
    · rcases extract_errors_mem read _ e he with h4 | h4
      · exact scan_errors_mem fs ctx e h4
      · exact Or.inr h4

/-- Empty context for the C7 witness: the chain reports the missing root
as a structured error and a `False` overall flag. -/
def ctxC7 : Ctx := {}

/-- C7 witness: on a context with no `source_path`, the chain marks
failure and surfaces a non-empty errors list. -/
theorem C7_failure_surfacing_witness :
    (discovery_chain fsW readW ctxC7).errors ≠ [] :=
  (C7_failure_surfacing fsW readW ctxC7).2.2.2.1 (by decide)

/-! ## Claim C8: the mapper's failure condition -/

theorem foldl_mapStep_configs (df : List (String × FunctionRecord)) :
    ∀ a : MapAcc,
      (df.foldl mapStep a).configs
        = df.foldl (fun c p => dinsert c p.1 (_create_domain_config p.2.domain)) a.configs := by
  induction df with
  | nil => intro a; simp
  | cons p rest ih => intro a; simp [ih, mapStep]

theorem foldl_mapStep_stats (df : List (String × FunctionRecord)) :
    ∀ a : MapAcc,
      (df.foldl mapStep a).stats
        = df.foldl (fun s p => dalter s p.2.domain (fun k => k + 1) 0) a.stats := by
  induction df with
  | nil => intro a; simp
  | cons p rest ih => intro a; simp [ih, mapStep]

theorem dinsert_of_not_mem {α : Type} (d : List (String × α)) (k : String) (v : α)
    (h : dlookup d k = none) : dinsert d k v = d ++ [(k, v)] := by
  induction d with
  | nil => rfl
  | cons p rest ih =>
    rw [dlookup] at h
    by_cases hb : (p.1 == k) = true
    · rw [if_pos hb] at h; cases h
    · rw [if_neg hb] at h
      rw [dinsert, if_neg hb, ih h, List.cons_append]

theorem dlookup_append_none {α : Type} (a b : List (String × α)) (k : String)
    (ha : dlookup a k = none) (hb : dlookup b k = none) : dlookup (a ++ b) k = none := by
  induction a with
  | nil => simpa using hb
  | cons p rest ih =>
    rw [dlookup] at ha
    by_cases hp : (p.1 == k) = true
    · rw [if_pos hp] at ha; cases ha
    · rw [if_neg hp] at ha
      rw [List.cons_append, dlookup, if_neg hp]
      exact ih ha

theorem foldl_dinsert_eq_map {α : Type} (g : String × FunctionRecord → α) :
    ∀ (df : List (String × FunctionRecord)) (acc : List (String × α)),
      (df.map Prod.fst).Nodup → (∀ p ∈ df, dlookup acc p.1 = none) →
      df.foldl (fun c p => dinsert c p.1 (g p)) acc
        = acc ++ df.map (fun p => (p.1, g p)) := by
  intro df
  induction df with
  | nil => intro acc _ _; simp
  | cons p rest ih =>
    intro acc hnd hfresh
    rw [List.map_cons, List.nodup_cons] at hnd
    rw [List.foldl_cons, dinsert_of_not_mem _ _ _ (hfresh p (by simp)),
      ih (acc ++ [(p.1, g p)]) hnd.2 ?_]
    · simp
    · intro q hq
      refine dlookup_append_none _ _ _ (hfresh q (by simp [hq])) ?_
      have hne : (p.1 == q.1) = false := by
        rcases hb : p.1 == q.1 with - | -
        · rfl
        · exact absurd (List.mem_map_of_mem Prod.fst hq)
            (by rw [← eq_of_beq hb]; exact hnd.1)
      simp [dlookup, hne]

theorem dlookup_dalter_succ (d : List (String × Nat)) (k j : String) :
    (dlookup (dalter d k (fun n => n + 1) 0) j).getD 0
      = (dlookup d j).getD 0 + (if j = k then 1 else 0) := by
  induction d with
  | nil =>
    by_cases hjk : j = k
    · simp [dalter, dlookup, hjk]
    · have : (k == j) = false := by
        rcases hb : k == j with - | -
        · rfl
        · exact absurd (eq_of_beq hb).symm hjk
      simp [dalter, dlookup, this, hjk]
  | cons p rest ih =>
    rw [dalter]
    by_cases hpk : (p.1 == k) = true
    · have hpk' : p.1 = k := eq_of_beq hpk
      rw [if_pos hpk, dlookup, dlookup]
      by_cases hpj : (p.1 == j) = true
      · have : j = k := by rw [← eq_of_beq hpj, hpk']
        simp [hpj, this, hpk']
      · have : ¬ (j = k) := by
          intro hc
          exact hpj (by rw [hpk', ← hc] at hpk ⊢; exact hpk)
        simp only [Bool.not_eq_true] at hpj
        simp [hpj, this]
    · simp only [Bool.not_eq_true] at hpk
      rw [if_neg (by simp [hpk]), dlookup, dlookup]
      by_cases hpj : (p.1 == j) = true
      · have : ¬ (j = k) := by
          intro hc
          rw [eq_of_beq hpj, hc] at hpk
          simp at hpk
        simp [hpj, this]
      · simp only [Bool.not_eq_true] at hpj
        simp [hpj, ih]

theorem statsFold_count (df : List (String × FunctionRecord)) :
    ∀ (s : List (String × Nat)) (d : String),
      (dlookup (df.foldl (fun s p => dalter s p.2.domain (fun k => k + 1) 0) s) d).getD 0
        = (dlookup s d).getD 0 + df.countP (fun p => p.2.domain == d) := by
  induction df with
  | nil => intro s d; simp
  | cons p rest ih =>
    intro s d
    rw [List.foldl_cons, ih, dlookup_dalter_succ, List.countP_cons]
    by_cases hd : p.2.domain = d
    · simp [hd]
      omega
    · have h1 : (p.2.domain == d) = false := by
        rcases hb : p.2.domain == d with - | -
        · rfl
        · exact absurd (eq_of_beq hb) hd
      have h2 : ¬ (d = p.2.domain) := fun hc => hd hc.symm
      simp [h1, h2]

/-- A context whose discovered-functions key is present but empty, for the
C8 counterexample. -/
def ctxC8 : Ctx := { discovered_functions := some [] }

/-- C8 counterexample: the mapper's guard is Python truthiness, so a
PRESENT but empty discovered-functions mapping also fails with a
missing-input error, refuting "fails if and only if the input is missing"
and "for every present mapping it succeeds". -/
theorem C8_counterexample :
    ctxC8.discovered_functions = some [] ∧
    (domain_mapping_link ctxC8).mapping_success = some false ∧
    (domain_mapping_link ctxC8).errors ≠ [] := by decide

/-- C8 (amended): with no prior errors, the mapper fails exactly when the
discovered-functions mapping is missing OR empty; the failure is recorded
as a structured error with `mapping_success = False` (the model is a total
function — nothing is raised); on every present non-empty mapping (with
distinct qualified names, as discovery produces) it succeeds, emitting one
configuration per qualified name in order and a per-domain function
count. -/
theorem C8_mapping_amended (ctx : Ctx) (herr : ctx.errors = []) :
    (ctx.discovered_functions.getD [] = [] →
      (domain_mapping_link ctx).mapping_success = some false ∧
      (domain_mapping_link ctx).errors
        = [⟨"missing_context", "domain_mapping_link",
            "Missing required context key: discovered_functions"⟩]) ∧
    (∀ df : List (String × FunctionRecord),
      ctx.discovered_functions = some df → df ≠ [] → (df.map Prod.fst).Nodup →
      (domain_mapping_link ctx).mapping_success = some true ∧
      (domain_mapping_link ctx).function_configs
        = some (df.map (fun p => (p.1, _create_domain_config p.2.domain))) ∧
      ((domain_mapping_link ctx).mapping_summary.map (fun s => s.total_functions))
        = some df.length ∧
      (∀ d : String,
        ((domain_mapping_link ctx).mapping_summary.map
            (fun s => (dlookup s.domain_distribution d).getD 0))
          = some (df.countP (fun p => p.2.domain == d)))) := by
  constructor
  · intro hdf
    simp [domain_mapping_link, herr, hdf]
  · intro df hdf hne hnd
    have hemp : df.isEmpty = false := by
      cases df with
      | nil => exact absurd rfl hne
      | cons p rest => rfl
    have hres : domain_mapping_link ctx
        = { ctx with
            function_configs := some (df.foldl mapStep ⟨[], [], []⟩).configs,
            domain_mappings := some (df.foldl mapStep ⟨[], [], []⟩).groups,
            mapping_success := some true,
            mapping_summary := some ⟨df.length, (df.foldl mapStep ⟨[], [], []⟩).stats.length,
              (df.foldl mapStep ⟨[], [], []⟩).stats⟩ } := by
      simp [domain_mapping_link, herr, hdf, hemp]
    rw [hres]
    refine ⟨rfl, ?_, ?_, ?_⟩
    · show some (df.foldl mapStep ⟨[], [], []⟩).configs = _
      rw [foldl_mapStep_configs, foldl_dinsert_eq_map _ df [] hnd (fun p _ => rfl)]
      simp
    · simp
    · intro d
      show some ((dlookup (df.foldl mapStep ⟨[], [], []⟩).stats d).getD 0)
          = some (df.countP (fun p => p.2.domain == d))
      rw [foldl_mapStep_stats, statsFold_count]
      simp [dlookup]

/-- A discovered mapping with two functions for the C8 witness. -/
def dfC8 : List (String × FunctionRecord) :=
  [("a.train",
    ⟨"train", "a.train", ["proj", "a.py"], "a", false, ["data"], 0, "Train model", none, [],
     ⟨0, 0, 0, 1, 1⟩, "ml", [], (1, 3)⟩),
   ("b.check",
    ⟨"check", "b.check", ["proj", "b.py"], "b", false, [], 0, "", none, [],
     ⟨0, 0, 0, 0, 0⟩, "business_logic", [], (1, 2)⟩)]

/-- Input context for the C8 witness. -/
def ctxC8w : Ctx := { discovered_functions := some dfC8 }

/-- C8 amended-claim witness: a present two-function mapping succeeds with
one configuration per function and the right per-domain count. -/
theorem C8_mapping_witness :
    (domain_mapping_link ctxC8w).mapping_success = some true ∧
    ((domain_mapping_link ctxC8w).mapping_summary.map (fun s => s.total_functions))
      = some 2 ∧
    ((domain_mapping_link ctxC8w).mapping_summary.map
        (fun s => (dlookup s.domain_distribution "ml").getD 0)) = some 1 := by
  have h := (C8_mapping_amended ctxC8w rfl).2 dfC8 rfl (by decide) (by decide)
  exact ⟨h.1, h.2.2.1.trans (by decide), (h.2.2.2 "ml").trans (by decide)⟩

/-! ## Claims C9 and C10: success-path shapes of extract and the chain -/

theorem extract_shape (read : ReadFn) (ctx : Ctx) (root : String) (files : List PyPath)
    (herr : ctx.errors = []) (hsp : ctx.source_path = some root) (hroot : root ≠ "")
    (hpf : ctx.python_files.getD [] = files) :
    extract_functions_link read ctx
      = { ctx with
          discovered_functions := some (extractLoop read root files ⟨[], 0, 0, 0⟩).discovered,
          extraction_summary := some
            ⟨(extractLoop read root files ⟨[], 0, 0, 0⟩).processed,
             (extractLoop read root files ⟨[], 0, 0, 0⟩).withErrors,
             (extractLoop read root files ⟨[], 0, 0, 0⟩).total,
             ((extractLoop read root files ⟨[], 0, 0, 0⟩).total : ℚ)
               / ((max (extractLoop read root files ⟨[], 0, 0, 0⟩).processed 1 : Nat) : ℚ)⟩,
          extraction_success := some true } := by
  have hne : (root == "") = false := by
    cases hb : root == "" with
    | false => rfl
    | true => exact absurd (by simpa using hb) hroot
  simp [extract_functions_link, herr, hsp, hpf, truthyStr, hne]

theorem chain_success_shape (fs : Fs) (read : ReadFn) (ctx : Ctx) (root : String)
    (herr : ctx.errors = []) (hsp : ctx.source_path = some root) (hroot : root ≠ "")
    (hex : fs.pathExists root = true) :
    (discovery_chain fs read ctx).discovery_success = some true ∧
    (discovery_chain fs read ctx).python_files = some (scanFiles fs root) ∧
    (discovery_chain fs read ctx).discovered_functions
      = some (extractLoop read root (scanFiles fs root) ⟨[], 0, 0, 0⟩).discovered := by
  have hne : (root == "") = false := by
    cases hb : root == "" with
    | false => rfl
    | true => exact absurd (by simpa using hb) hroot
  have ht : truthyStr ctx.source_path = true := by rw [hsp]; simp [truthyStr, hne]
  have hscan : scan_codebase_link fs ctx
      = { ctx with
          python_files := some (scanFiles fs root),
          scan_summary := some ⟨(fs.rglob root).length, (scanFiles fs root).length,
            (fs.rglob root).length - (scanFiles fs root).length, root⟩,
          scan_success := some true } := by
    simp [scan_codebase_link, herr, hsp, truthyStr, hne, hex]
  have hext := extract_shape read
    { ctx with
      python_files := some (scanFiles fs root),
      scan_summary := some ⟨(fs.rglob root).length, (scanFiles fs root).length,
        (fs.rglob root).length - (scanFiles fs root).length, root⟩,
      scan_success := some true }
    root (scanFiles fs root) herr hsp hroot rfl
  refine ⟨?_, ?_, ?_⟩ <;> simp [discovery_chain, ht, hscan, hext]

/-! ## Claim C9: discovery is deterministic -/

/-- C9: for a fixed directory tree (filesystem and parser oracles) and a
fixed root, any two runs of the chain — even from contexts differing in
every incidental field — produce identical python-file lists and identical
FunctionRecord mappings, and succeed; moreover the dependencies collection
of every record is genuinely de-duplicated: it has no duplicates and holds
exactly the attribute-call receivers of the body. -/
theorem C9_determinism (fs : Fs) (read : ReadFn) (ctx1 ctx2 : Ctx) (root : String)
    (h1e : ctx1.errors = []) (h2e : ctx2.errors = [])
    (h1s : ctx1.source_path = some root) (h2s : ctx2.source_path = some root)
    (hroot : root ≠ "") (hex : fs.pathExists root = true) :
    ((discovery_chain fs read ctx1).discovered_functions
        = (discovery_chain fs read ctx2).discovered_functions ∧
      (discovery_chain fs read ctx1).python_files
        = (discovery_chain fs read ctx2).python_files ∧
      (discovery_chain fs read ctx1).discovery_success = some true ∧
      (discovery_chain fs read ctx2).discovery_success = some true) ∧
    (∀ body : List BodyNode,
      (_extract_dependencies body).Nodup ∧
      ∀ r : String, r ∈ _extract_dependencies body ↔ r ∈ callReceivers body) := by
  have h1 := chain_success_shape fs read ctx1 root h1e h1s hroot hex
  have h2 := chain_success_shape fs read ctx2 root h2e h2s hroot hex
  refine ⟨⟨h1.2.2.trans h2.2.2.symm, h1.2.1.trans h2.2.1.symm, h1.1, h2.1⟩, ?_⟩
  intro body
  exact ⟨List.nodup_dedup _, fun r => List.mem_dedup⟩

/-- First run context for the C9 witness. -/
def ctxC9a : Ctx := { source_path := some "proj" }

/-- Second run context for the C9 witness, differing in incidental fields. -/
def ctxC9b : Ctx :=
  { source_path := some "proj", python_files := some [["junk.py"]],
    discovered_functions := some [] }

/-- C9 witness: two concrete runs over the same tree agree. -/
theorem C9_determinism_witness :
    (discovery_chain fsW readW ctxC9a).discovered_functions
      = (discovery_chain fsW readW ctxC9b).discovered_functions ∧
    (discovery_chain fsW readW ctxC9a).discovery_success = some true := by
  have h := C9_determinism fsW readW ctxC9a ctxC9b "proj" rfl rfl rfl rfl (by decide) rfl
  exact ⟨h.1.1, h.1.2.2.1⟩

/-! ## Claim C10: an absent or empty file list is not an error -/

/-- C10: with no prior errors and a present root, a missing or empty
`python_files` key makes the extractor succeed with an empty mapping, zero
files processed, zero files with errors, zero functions, a zero average
(the divisor is `max(files_processed, 1)`, so no division by zero), and no
missing-input error. -/
theorem C10_empty_file_list (read : ReadFn) (ctx : Ctx) (root : String)
    (herr : ctx.errors = []) (hsp : ctx.source_path = some root) (hroot : root ≠ "")
    (hpf : ctx.python_files = none ∨ ctx.python_files = some []) :
    (extract_functions_link read ctx).extraction_success = some true ∧
    (extract_functions_link read ctx).errors = [] ∧
    (extract_functions_link read ctx).discovered_functions = some [] ∧
    (extract_functions_link read ctx).extraction_summary = some ⟨0, 0, 0, 0⟩ := by
  have hpf' : ctx.python_files.getD [] = [] := by
    rcases hpf with h | h <;> simp [h]
  have h := extract_shape read ctx root [] herr hsp hroot hpf'
  rw [h]
  refine ⟨rfl, by simpa using herr, rfl, ?_⟩
  norm_num [extractLoop]

/-- Input context for the C10 witness: `python_files` absent. -/
def ctxC10 : Ctx := { source_path := some "proj" }

/-- C10 witness at a concrete context with no `python_files` key. -/
theorem C10_empty_file_list_witness :
    (extract_functions_link readW ctxC10).extraction_success = some true ∧
    (extract_functions_link readW ctxC10).errors = [] ∧
    (extract_functions_link readW ctxC10).extraction_summary = some ⟨0, 0, 0, 0⟩ := by
  have h := C10_empty_file_list readW ctxC10 "proj" rfl rfl (by decide) (Or.inl rfl)
  exact ⟨h.1, h.2.1, h.2.2.2⟩
